import Mathlib

/-!
Verification of the cost-bounded task orchestration core of the
90-second-briefings system: a shallow embedding of the task queue
(SQLite and Redis backends), the monitor sweep, the worker supervision
loop, the cost ledger and the system monitor, with theorems checking the
specified scheduling, retry, budget and shutdown properties.

Modelling conventions: timestamps are Nat ordinals, currency amounts are
exact rationals (Python floats abstracted as ℚ), Python dicts are
association lists with dict update semantics (first matching key), and
the SQLite table is the list of rows in insertion (rowid) order.
-/

namespace BriefingsCore

/-! Task data model, from core/task_queue.py (class TaskStatus, dataclass Task). -/

inductive TaskStatus where
  | pending
  | assigned
  | processing
  | completed
  | failed
  | cancelled
deriving DecidableEq

/-- A parameter value in the opaque task parameter mapping. -/
inductive PVal where
  | str (s : String)
  | num (n : ℚ)
deriving DecidableEq

/-- The Task dataclass.  `created_at` and the other timestamps are Nat
ordinals standing for wall-clock instants. -/
structure Task where
  id : String
  description : String := ""
  task_type : String := "general"
  priority : Int := 5
  parameters : List (String × PVal) := []
  worker_type : String := "general"
  status : TaskStatus := TaskStatus.pending
  created_at : Nat := 0
  assigned_at : Option Nat := none
  started_at : Option Nat := none
  completed_at : Option Nat := none
  assigned_worker : Option String := none
  result : Option String := none
  error : Option String := none
  retry_count : Nat := 0
  max_retries : Nat := 3
  timeout_seconds : Nat := 3600
  cost_estimate : ℚ := 0
  dependencies : List String := []
deriving DecidableEq

/-- An update dictionary passed to `update_task`: the keys the SQLite
backend accepts (status, assigned_worker, result, error, retry_count and
the `_at` timestamp columns).  An outer `none` means the key is absent
from the dict; `some none` sets the column to NULL. -/
structure TaskPatch where
  status : Option TaskStatus := none
  assigned_worker : Option (Option String) := none
  result : Option (Option String) := none
  error : Option (Option String) := none
  retry_count : Option Nat := none
  assigned_at : Option (Option Nat) := none
  started_at : Option (Option Nat) := none
  completed_at : Option (Option Nat) := none
deriving DecidableEq

def applyPatch (p : TaskPatch) (t : Task) : Task :=
  { t with
    status := p.status.getD t.status
    assigned_worker := p.assigned_worker.getD t.assigned_worker
    result := p.result.getD t.result
    error := p.error.getD t.error
    retry_count := p.retry_count.getD t.retry_count
    assigned_at := p.assigned_at.getD t.assigned_at
    started_at := p.started_at.getD t.started_at
    completed_at := p.completed_at.getD t.completed_at }

/-- SQLiteQueueBackend.update_task: UPDATE tasks SET ... WHERE id = ?. -/
def sqliteUpdateTask (db : List Task) (taskId : String) (p : TaskPatch) : List Task :=
  db.map (fun t => if t.id = taskId then applyPatch p t else t)

/-- The WHERE clause of get_next_task: status = pending, optionally
filtered by worker_type. -/
def isPendingMatch (wt : Option String) (t : Task) : Bool :=
  t.status = TaskStatus.pending &&
    (match wt with
     | none => true
     | some w => t.worker_type = w)

/-- ORDER BY priority DESC, created_at ASC: `u` sorts strictly before `c`. -/
def betterCand (u c : Task) : Bool :=
  c.priority < u.priority || (u.priority = c.priority && u.created_at < c.created_at)

/-- The SELECT ... ORDER BY priority DESC, created_at ASC LIMIT 1 of
get_next_task: the first row, in insertion order, among the minimal rows
of the pending/worker_type filter. -/
def selectCandidate (db : List Task) (wt : Option String) : Option Task :=
  match db.filter (isPendingMatch wt) with
  | [] => none
  | t :: ts => some (ts.foldl (fun c u => if betterCand u c then u else c) t)

/-- The per-dependency check of get_next_task: a dependency counts as met
only when a row with that id exists and its status is completed. -/
def depCompleted (db : List Task) (depId : String) : Bool :=
  match db.find? (fun t => t.id = depId) with
  | some d => d.status = TaskStatus.completed
  | none => false

/-- UPDATE tasks SET status = assigned, assigned_at = now WHERE id = ?. -/
def assignRow (db : List Task) (taskId : String) (now : Nat) : List Task :=
  db.map (fun t =>
    if t.id = taskId then
      { t with status := TaskStatus.assigned, assigned_at := some now }
    else t)

/-- SQLiteQueueBackend.get_next_task.  Exactly one candidate row is
fetched; if it has a dependency that is not completed the function
returns none without scanning further.  The returned Task is built from
the row as fetched, i.e. before the UPDATE (its status field still reads
pending), while the stored row becomes assigned. -/
def sqliteGetNextTask (db : List Task) (wt : Option String) (now : Nat) :
    Option Task × List Task :=
  match selectCandidate db wt with
  | none => (none, db)
  | some row =>
      if row.dependencies.isEmpty || row.dependencies.all (depCompleted db) then
        (some row, assignRow db row.id now)
      else
        (none, db)

/-- Successive get_next_task calls on the SQLite backend, collecting the
returned tasks until none is returned (fuel-bounded). -/
def sqliteClaimSeq : Nat → List Task → String → Nat → List Task
  | 0, _, _, _ => []
  | n + 1, db, wt, now =>
      match sqliteGetNextTask db (some wt) now with
      | (some t, db2) => t :: sqliteClaimSeq n db2 wt now
      | (none, _) => []

/-! Monitor sweep, from TaskQueue._monitor_tasks (one iteration): first
every processing task past its timeout is failed, then every failed task
with retry budget left is reset to pending. -/

/-- Timeout reclassification for one row. -/
def timeoutTask (now : Nat) (t : Task) : Task :=
  if t.status = TaskStatus.processing then
    match t.started_at with
    | some s =>
        if t.timeout_seconds < now - s then
          { t with
            status := TaskStatus.failed
            error := some ("Task timed out after " ++ toString (now - s) ++ " seconds")
            completed_at := some now }
        else t
    | none => t
  else t

/-- Retry reset for one row: failed and retry_count < max_retries goes
back to pending with retry_count incremented and the assignment fields
cleared (the code clears assigned_at, started_at, assigned_worker and
error). -/
def retryTask (t : Task) : Task :=
  if t.status = TaskStatus.failed && t.retry_count < t.max_retries then
    { t with
      status := TaskStatus.pending
      retry_count := t.retry_count + 1
      assigned_at := none
      started_at := none
      assigned_worker := none
      error := none }
  else t

/-- One iteration of TaskQueue._monitor_tasks.  The failed-task list is
taken after the timeout updates, so a task timed out in this iteration
is retried in the same iteration.  Row ids are unique (primary key), so
the per-id updates are a pointwise map. -/
def monitorSweep (db : List Task) (now : Nat) : List Task :=
  (db.map (timeoutTask now)).map retryTask

/-! Status query API, from TaskQueue.get_task_status and
TaskQueue._calculate_progress. -/

/-- TaskQueue._calculate_progress: the if-chain maps pending to 0.0,
assigned to 0.1, processing to 0.5, completed or failed to 1.0, and
everything else (cancelled) falls to the final else of 0.0. -/
def calculateProgress : TaskStatus → ℚ
  | TaskStatus.pending => 0
  | TaskStatus.assigned => 0.1
  | TaskStatus.processing => 0.5
  | TaskStatus.completed => 1
  | TaskStatus.failed => 1
  | TaskStatus.cancelled => 0

/-- SQLiteQueueBackend.get_task: SELECT * FROM tasks WHERE id = ?. -/
def getTask (db : List Task) (taskId : String) : Option Task :=
  db.find? (fun t => t.id = taskId)

/-- The dict returned by TaskQueue.get_task_status. -/
structure TaskStatusInfo where
  id : String
  status : TaskStatus
  progress : ℚ
  created_at : Nat
  completed_at : Option Nat
  result : Option String
  error : Option String
deriving DecidableEq

def getTaskStatus (db : List Task) (taskId : String) : Option TaskStatusInfo :=
  (getTask db taskId).map (fun t =>
    { id := t.id
      status := t.status
      progress := calculateProgress t.status
      created_at := t.created_at
      completed_at := t.completed_at
      result := t.result
      error := t.error })

/-! Task submission, from TaskQueue.submit_task, _determine_worker_type
and _estimate_task_cost. -/

/-- The static task_type to worker_type mapping table of
TaskQueue._determine_worker_type. -/
def workerMapping : List (String × String) :=
  [("scrape_source", "scraper"),
   ("scrape_social", "scraper"),
   ("scrape_rss", "scraper"),
   ("generate_briefing", "summarizer"),
   ("analyze_sentiment", "summarizer"),
   ("extract_topics", "summarizer"),
   ("generate_audio", "audio"),
   ("create_podcast_episode", "audio"),
   ("generate_rss_feed", "audio"),
   ("deliver_briefing", "dashboard"),
   ("send_email_digest", "dashboard"),
   ("export_to_notion", "dashboard"),
   ("start_dashboard", "dashboard")]

/-- worker_mapping.get(task_type, general): an unmapped task_type falls
back to the string general; no exception is raised. -/
def determineWorkerType (task_type : String) : String :=
  (workerMapping.lookup task_type).getD "general"

def baseCosts : List (String × ℚ) :=
  [("scrape_source", 0.01),
   ("generate_briefing", 0.05),
   ("generate_audio", 0.10),
   ("deliver_briefing", 0.02)]

/-- Round to three decimals.  Python round uses round-half-to-even; the
difference only shows on exact half-thousandth ties. -/
def round3 (q : ℚ) : ℚ := ((q * 1000 + 1 / 2).floor : ℚ) / 1000

/-- TaskQueue._estimate_task_cost.  When the max_posts key is present,
the code divides its value by 10 (parameters.get with its default 10 is
unreachable under the membership test), so a non-numeric max_posts value
raises TypeError out of the estimate — the error path is explicit here. -/
def estimateTaskCost (task_type : String) (params : List (String × PVal)) :
    Except String ℚ :=
  let base := (baseCosts.lookup task_type).getD 0.01
  let base := if (params.lookup "source_url").isSome then base * 1.2 else base
  match params.lookup "max_posts" with
  | none => Except.ok (round3 base)
  | some (PVal.num n) => Except.ok (round3 (base * n / 10))
  | some (PVal.str _) =>
      Except.error "TypeError: unsupported operand type for /: str and int"

/-- TaskQueue.submit_task.  The generated uuid and the current time come
in as the freshId and now arguments (the 8-character uuid prefix is
taken to be fresh; a primary-key collision on INSERT would raise).  The
worker type is determined first; then the cost estimate runs, and a
TypeError raised there propagates out of submit_task before any task is
created; otherwise the task is created with the Task dataclass defaults,
in particular status pending, and appended to the store. -/
def submitTask (db : List Task) (description task_type : String)
    (worker_type : Option String) (priority : Int) (timeout : Nat)
    (dependencies : List String) (params : List (String × PVal))
    (freshId : String) (now : Nat) : Except String (String × List Task) :=
  let wt :=
    match worker_type with
    | some w => w
    | none => determineWorkerType task_type
  match estimateTaskCost task_type params with
  | Except.error e => Except.error e
  | Except.ok cost =>
      let task : Task :=
        { id := freshId
          description := description
          task_type := task_type
          priority := priority
          parameters := params
          worker_type := wt
          created_at := now
          timeout_seconds := timeout
          cost_estimate := cost
          dependencies := dependencies }
      Except.ok (freshId, db ++ [task])

/-! Redis backend, from RedisQueueBackend.  The store holds, per
worker_type, a pending sorted set keyed queue:wt:pending whose members
are task ids scored by priority, a processing sorted set scored by claim
time, and per task a hash task:id with the serialized fields (modelled
as the Task record; field serialization round-trips).  A sorted set is
an association list member to score; Redis orders it by score and, on
equal scores, by member string, so ZREVRANGE 0 0 yields the member
maximal in (score, member). -/

structure RedisState where
  pendingQ : List (String × List (String × Int)) := []
  processingQ : List (String × List (String × Nat)) := []
  hash : List (String × Task) := []
deriving DecidableEq

/-- ZADD: insert the member or update its score. -/
def zsetAdd (z : List (String × Int)) (member : String) (score : Int) :
    List (String × Int) :=
  if (z.lookup member).isSome then
    z.map (fun p => if p.1 = member then (p.1, score) else p)
  else z ++ [(member, score)]

def zsetAddNat (z : List (String × Nat)) (member : String) (score : Nat) :
    List (String × Nat) :=
  if (z.lookup member).isSome then
    z.map (fun p => if p.1 = member then (p.1, score) else p)
  else z ++ [(member, score)]

/-- ZREM: remove the member (a missing member is a silent no-op, and the
code ignores the removed count). -/
def zsetRem (z : List (String × Int)) (member : String) : List (String × Int) :=
  z.filter (fun p => p.1 ≠ member)

/-- Update one keyed queue inside the per-worker_type map. -/
def updateQ (qs : List (String × List (String × Int))) (key : String)
    (f : List (String × Int) → List (String × Int)) :
    List (String × List (String × Int)) :=
  if (qs.lookup key).isSome then
    qs.map (fun p => if p.1 = key then (p.1, f p.2) else p)
  else qs ++ [(key, f [])]

def updateQNat (qs : List (String × List (String × Nat))) (key : String)
    (f : List (String × Nat) → List (String × Nat)) :
    List (String × List (String × Nat)) :=
  if (qs.lookup key).isSome then
    qs.map (fun p => if p.1 = key then (p.1, f p.2) else p)
  else qs ++ [(key, f [])]

/-- HSET task:id (store or overwrite the task hash). -/
def hashSet (h : List (String × Task)) (t : Task) : List (String × Task) :=
  if (h.lookup t.id).isSome then
    h.map (fun p => if p.1 = t.id then (p.1, t) else p)
  else h ++ [(t.id, t)]

/-- RedisQueueBackend.add_task: HSET the task hash, then ZADD the id to
queue:worker_type:pending with the priority as score. -/
def redisAddTask (st : RedisState) (t : Task) : RedisState :=
  { st with
    hash := hashSet st.hash t
    pendingQ := updateQ st.pendingQ t.worker_type (fun z => zsetAdd z t.id t.priority) }

/-- Lexicographic comparison of the member byte strings, as Redis orders
equal-score members (the ids here are ASCII, so character order and byte
order agree). -/
def charListLt : List Char → List Char → Bool
  | _, [] => false
  | [], _ :: _ => true
  | a :: as, b :: bs => if a < b then true else if b < a then false else charListLt as bs

/-- Does `u` sort strictly after `c` in the sorted set (so ZREVRANGE
prefers it): higher score, or equal score and lexicographically greater
member. -/
def zrevBetter (u c : String × Int) : Bool :=
  decide (c.2 < u.2) || (decide (c.2 = u.2) && charListLt c.1.data u.1.data)

/-- ZREVRANGE queue 0 0: the member maximal in (score, member). -/
def zrevrangeTop (z : List (String × Int)) : Option String :=
  match z with
  | [] => none
  | e :: es => some ((es.foldl (fun c u => if zrevBetter u c then u else c) e).1)

/-- The first Redis command of get_next_task: read the top pending id. -/
def redisPeekTop (st : RedisState) (wt : String) : Option String :=
  zrevrangeTop ((st.pendingQ.lookup wt).getD [])

/-- The rest of get_next_task once an id was read: ZREM it from pending,
ZADD it to processing scored by the current time, HGETALL the task hash
and return the task.  Note that the task hash itself is not updated: the
stored status stays whatever it was, and dependencies are never
consulted. -/
def redisClaimId (st : RedisState) (wt taskId : String) (now : Nat) :
    Option Task × RedisState :=
  let st1 : RedisState :=
    { st with
      pendingQ := updateQ st.pendingQ wt (fun z => zsetRem z taskId)
      processingQ := updateQNat st.processingQ wt (fun z => zsetAddNat z taskId now) }
  match st1.hash.lookup taskId with
  | some t => (some t, st1)
  | none => (none, st1)

/-- RedisQueueBackend.get_next_task: read the top pending id, then move
it and fetch the hash.  The two halves are separate Redis commands, so
two concurrent callers in different processes can interleave between
them. -/
def redisGetNextTask (st : RedisState) (wt : Option String) (now : Nat) :
    Option Task × RedisState :=
  match wt with
  | none => (none, st)
  | some w =>
      match redisPeekTop st w with
      | none => (none, st)
      | some taskId => redisClaimId st w taskId now

/-! Worker supervision loop, from core/mini_worker.py (class MiniWorker).
The status strings, counters and the processing/completion protocol of
_process_task; stop_calls counts stop() invocations (instrumentation for
the stopped-exactly-once property, stop() itself sets the status). -/

structure Worker where
  worker_id : String
  worker_type : String
  status : String := "initializing"
  tasks_completed : Nat := 0
  error_count : Nat := 0
  current_task : Option String := none
  last_activity : Nat := 0
  stop_calls : Nat := 0
deriving DecidableEq

/-- MiniWorker.stop. -/
def workerStop (w : Worker) : Worker :=
  { w with status := "stopped", stop_calls := w.stop_calls + 1 }

/-- MiniWorker.pause. -/
def workerPause (w : Worker) : Worker :=
  { w with status := "paused" }

/-- The update dict _process_task sends before invoking the executor. -/
def processingPatch (workerId : String) (now : Nat) : TaskPatch :=
  { status := some TaskStatus.processing
    started_at := some (some now)
    assigned_worker := some (some workerId) }

/-- The update dict _process_task sends when the executor raises. -/
def failedPatch (errMsg : String) (now : Nat) : TaskPatch :=
  { status := some TaskStatus.failed
    error := some (some errMsg)
    completed_at := some (some now) }

/-- An executor plugin (execute_task of a concrete worker): given the
task id and the queue store it may read and update the store, and either
returns normally (none) or raises with a message (some msg). -/
abbrev Executor := String → List Task → List Task × Option String

/-- The queue store as the executor sees it: _process_task has already
sent the processing update. -/
def execInputState (db : List Task) (taskId workerId : String) (now : Nat) :
    List Task :=
  sqliteUpdateTask db taskId (processingPatch workerId now)

/-- MiniWorker._process_task: record the current task, mark it
processing with started_at and assigned_worker, invoke the executor; on
normal return only the local completion counter moves (no completed
status update is sent by this method); on exception the error counter
moves and the task is marked failed with the message.  The worker status
field is never touched, so the poll loop guard keeps running. -/
def processTask (w : Worker) (t : Task) (db : List Task) (exec : Executor)
    (now : Nat) : Worker × List Task :=
  let w0 := { w with current_task := some t.id, last_activity := now }
  let db1 := execInputState db t.id w.worker_id now
  match exec t.id db1 with
  | (db2, none) =>
      ({ w0 with tasks_completed := w0.tasks_completed + 1, current_task := none },
       db2)
  | (db2, some e) =>
      ({ w0 with error_count := w0.error_count + 1 },
       sqliteUpdateTask db2 t.id (failedPatch e now))

/-! Cost ledger, from core/cost_tracker.py. -/

structure CostEvent where
  timestamp : Nat
  service : String
  operation : String := "api_call"
  units : Int := 0
  cost_gbp : ℚ
  worker_id : String
  project_id : Option String := none
deriving DecidableEq

inductive AlertSeverity where
  | info
  | warning
  | critical
  | emergency
deriving DecidableEq

structure CostAlert where
  severity : AlertSeverity
  message : String
  current_cost : ℚ
  threshold : ℚ
  service : String
  worker_id : String
  timestamp : Nat
  action_taken : Option String := none
deriving DecidableEq

/-- CostTracker state.  The signal files the alert actions write
(EMERGENCY_SHUTDOWN, PAUSE_NON_ESSENTIAL, COST_WARNING) are modelled by
write counters. -/
structure CostTrackerState where
  daily_limit_gbp : ℚ := 20
  daily_costs : List (String × ℚ) := []
  worker_costs : List (String × ℚ) := []
  cost_events : List CostEvent := []
  alerts : List CostAlert := []
  monitoring_active : Bool := false
  emergency_shutdown : Bool := false
  shutdown_file_writes : Nat := 0
  pause_file_writes : Nat := 0
  warning_file_writes : Nat := 0
deriving DecidableEq

/-- The dict update `totals[key] = totals.get(key, 0) + c` (dict keys are
unique, so the first matching entry is the entry). -/
def bumpTotal : List (String × ℚ) → String → ℚ → List (String × ℚ)
  | [], k, c => [(k, c)]
  | p :: rest, k, c =>
      if p.1 = k then (p.1, p.2 + c) :: rest else p :: bumpTotal rest k c

/-- sum(self.daily_costs.values()). -/
def dailyTotal (st : CostTrackerState) : ℚ :=
  (st.daily_costs.map (fun p => p.2)).sum

/-- CostTracker._check_cost_guardrails: the alerts raised for one
recorded event, evaluated on the running totals.  The worker cap is the
hard-coded 5 pounds; the daily thresholds are fractions of the
configured daily limit.  Message text is abstracted to fixed strings. -/
def checkCostGuardrails (st : CostTrackerState) (ev : CostEvent) (now : Nat) :
    List CostAlert :=
  let total := dailyTotal st
  let workerCost := (st.worker_costs.lookup ev.worker_id).getD 0
  let workerLimit : ℚ := 5
  let workerAlerts : List CostAlert :=
    if workerLimit * 0.8 < workerCost then
      [{ severity :=
           if workerCost < workerLimit then AlertSeverity.warning
           else AlertSeverity.critical
         message := "Worker " ++ ev.worker_id ++ " approaching/exceeding limit"
         current_cost := workerCost
         threshold := workerLimit
         service := ev.service
         worker_id := ev.worker_id
         timestamp := now }]
    else []
  let dailyAlerts : List CostAlert :=
    if st.daily_limit_gbp * 0.7 < total then
      [{ severity :=
           if st.daily_limit_gbp < total then AlertSeverity.emergency
           else if st.daily_limit_gbp * 0.9 < total then AlertSeverity.critical
           else AlertSeverity.warning
         message := "Daily cost limit approaching/exceeded"
         current_cost := total
         threshold := st.daily_limit_gbp
         service := "system"
         worker_id := "all"
         timestamp := now }]
    else []
  workerAlerts ++ dailyAlerts

/-- CostTracker._emergency_shutdown: a no-op while a shutdown is already
active, otherwise set the flag and write the EMERGENCY_SHUTDOWN file. -/
def costEmergencyShutdown (st : CostTrackerState) : CostTrackerState :=
  if st.emergency_shutdown then st
  else
    { st with
      emergency_shutdown := true
      shutdown_file_writes := st.shutdown_file_writes + 1 }

def alertAction : AlertSeverity → Option String
  | AlertSeverity.emergency => some "emergency_shutdown"
  | AlertSeverity.critical => some "pause_non_essential"
  | AlertSeverity.warning => some "notification_sent"
  | AlertSeverity.info => none

/-- CostTracker._handle_cost_alert: append the alert (with the
action_taken it ends up carrying), then act by severity: emergency runs
the emergency shutdown, critical writes the pause signal file, warning
writes the notification file. -/
def handleCostAlert (st : CostTrackerState) (a : CostAlert) : CostTrackerState :=
  let st1 := { st with alerts := st.alerts ++ [{ a with action_taken := alertAction a.severity }] }
  match a.severity with
  | AlertSeverity.emergency => costEmergencyShutdown st1
  | AlertSeverity.critical => { st1 with pause_file_writes := st1.pause_file_writes + 1 }
  | AlertSeverity.warning => { st1 with warning_file_writes := st1.warning_file_writes + 1 }
  | AlertSeverity.info => st1

/-- CostTracker._record_cost_event: append the event, add its cost to
the per-service and per-worker running totals, then evaluate the
guardrails on the new totals and handle each raised alert. -/
def recordCostEvent (st : CostTrackerState) (ev : CostEvent) (now : Nat) :
    CostTrackerState :=
  let st1 :=
    { st with
      cost_events := st.cost_events ++ [ev]
      daily_costs := bumpTotal st.daily_costs ev.service ev.cost_gbp
      worker_costs := bumpTotal st.worker_costs ev.worker_id ev.cost_gbp }
  (checkCostGuardrails st1 ev now).foldl handleCostAlert st1

/-- CostTracker.get_remaining_budget: max(0, limit - total). -/
def getRemainingBudget (st : CostTrackerState) : ℚ :=
  max 0 (st.daily_limit_gbp - dailyTotal st)

/-- CostTracker.stop_monitoring (the persistence side effect is a save
of already-tracked state). -/
def costStopMonitoring (st : CostTrackerState) : CostTrackerState :=
  { st with monitoring_active := false }

/-! System monitor, from core/system_monitor.py. -/

structure SysAlert where
  severity : String
  component : String
  message : String
deriving DecidableEq

/-- SystemMonitor state: the registered workers, whether the queue
monitor sweep runs, the cost tracker, the shutdown flag and reason, the
alert log, and a write counter for the SYSTEM_SHUTDOWN.json report. -/
structure MonitorState where
  workers : List Worker := []
  queue_monitor_running : Bool := true
  cost : CostTrackerState := {}
  emergency_shutdown_active : Bool := false
  shutdown_reason : Option String := none
  alerts : List SysAlert := []
  shutdown_reports : Nat := 0
deriving DecidableEq

/-- SystemMonitor._trigger_emergency_shutdown: a no-op while a shutdown
is already active; otherwise set the flag and reason, record one
emergency alert, stop every registered worker, stop the queue monitor
sweep, stop cost tracking, and persist one shutdown report. -/
def triggerEmergencyShutdown (st : MonitorState) (reason : String) : MonitorState :=
  if st.emergency_shutdown_active then st
  else
    { st with
      emergency_shutdown_active := true
      shutdown_reason := some reason
      alerts := st.alerts ++
        [{ severity := "emergency"
           component := "system"
           message := "Emergency shutdown triggered: " ++ reason }]
      workers := st.workers.map workerStop
      queue_monitor_running := false
      cost := costStopMonitoring st.cost
      shutdown_reports := st.shutdown_reports + 1 }

/-! Concrete fixtures used by counterexamples and witnesses. -/

/-- Highest-priority task, blocked on an incomplete dependency. -/
def taskBlocked : Task :=
  { id := "h", priority := 10, worker_type := "scraper",
    dependencies := ["d"], created_at := 1 }

/-- The dependency, still pending. -/
def taskDep : Task :=
  { id := "d", priority := 1, worker_type := "general", created_at := 0 }

/-- A ready lower-priority task of the requested worker type. -/
def taskReady : Task :=
  { id := "b", priority := 5, worker_type := "scraper", created_at := 2 }

def dbBlocked : List Task := [taskBlocked, taskDep, taskReady]

def rstBlocked : RedisState :=
  redisAddTask (redisAddTask (redisAddTask {} taskBlocked) taskDep) taskReady

/-- Claim C1 (code_bug evidence): with the highest-priority pending task
blocked on an incomplete dependency and a ready lower-priority task of
the same worker type present, the SQLite get_next_task returns none (it
stops at the blocked candidate instead of scanning on), and the Redis
get_next_task returns the blocked task itself (it never consults
dependencies) — neither backend skips the blocked candidate and returns
the ready task, contradicting the non-blocking-scan contract. -/
theorem c1_claim_next_stops_at_blocked_candidate :
    (sqliteGetNextTask dbBlocked (some "scraper") 50).1 = none ∧
    taskReady ∈ dbBlocked ∧
    taskReady.status = TaskStatus.pending ∧
    taskReady.dependencies = [] ∧
    taskReady.worker_type = "scraper" ∧
    taskReady.priority < taskBlocked.priority ∧
    ((redisGetNextTask rstBlocked (some "scraper") 50).1).map (fun t => t.id) =
      some "h" := by
  decide

/-- The single pending task of the double-claim scenario. -/
def taskSolo : Task := { id := "t1", priority := 5, worker_type := "scraper" }

def rstSolo : RedisState := redisAddTask {} taskSolo

/-- Claim C2 (code_bug evidence): the Redis get_next_task is ZREVRANGE
followed by ZREM/ZADD as separate commands, not an atomic move.  In the
interleaving where two concurrent callers both run ZREVRANGE before
either runs ZREM (both reads see the same state, so one peek equation
stands for both), both callers complete the move-and-fetch and both are
handed the same task: the task id is returned to two callers. -/
theorem c2_redis_double_claim :
    redisPeekTop rstSolo "scraper" = some "t1" ∧
    (redisClaimId rstSolo "scraper" "t1" 100).1 = some taskSolo ∧
    (redisClaimId (redisClaimId rstSolo "scraper" "t1" 100).2 "scraper" "t1" 101).1 =
      some taskSolo := by
  decide

/-- A cancelled task, for the progress-mapping counterexample. -/
def taskCancelled : Task := { id := "c", status := TaskStatus.cancelled }

/-- Claim C9 counterexample: for a CANCELLED task — a terminal status —
get_task_status reports progress 0.0, not 1.0: _calculate_progress only
maps COMPLETED and FAILED to 1.0 and CANCELLED falls through to the
final else. -/
theorem c9_cancelled_progress_counterexample :
    (getTaskStatus [taskCancelled] "c").map (fun info => info.progress) = some 0 ∧
    (0 : ℚ) ≠ 1 := by
  decide

/-- Claim C9 (amended): for every known task id, get_task_status reports
progress as a function of status only: PENDING to 0.0, ASSIGNED to 0.1,
PROCESSING to 0.5, COMPLETED and FAILED to 1.0, but CANCELLED to 0.0;
the reported progress always lies in [0,1]. -/
theorem c9_progress_mapping (db : List Task) (taskId : String) (t : Task)
    (h : getTask db taskId = some t) :
    ∃ info : TaskStatusInfo, getTaskStatus db taskId = some info ∧
      info.progress = calculateProgress t.status ∧
      0 ≤ info.progress ∧ info.progress ≤ 1 ∧
      calculateProgress TaskStatus.pending = 0 ∧
      calculateProgress TaskStatus.assigned = 0.1 ∧
      calculateProgress TaskStatus.processing = 0.5 ∧
      calculateProgress TaskStatus.completed = 1 ∧
      calculateProgress TaskStatus.failed = 1 ∧
      calculateProgress TaskStatus.cancelled = 0 := by
  refine ⟨{ id := t.id, status := t.status, progress := calculateProgress t.status,
            created_at := t.created_at, completed_at := t.completed_at,
            result := t.result, error := t.error },
          by simp [getTaskStatus, h], rfl, ?_, ?_, rfl, rfl, rfl, rfl, rfl, rfl⟩ <;>
    cases t.status <;> simp [calculateProgress] <;> norm_num

/-- Witness for c9_progress_mapping at a concrete single-task store. -/
theorem c9_progress_mapping_witness :
    ∃ info : TaskStatusInfo, getTaskStatus [taskCancelled] "c" = some info ∧
      info.progress = calculateProgress taskCancelled.status ∧
      0 ≤ info.progress ∧ info.progress ≤ 1 ∧
      calculateProgress TaskStatus.pending = 0 ∧
      calculateProgress TaskStatus.assigned = 0.1 ∧
      calculateProgress TaskStatus.processing = 0.5 ∧
      calculateProgress TaskStatus.completed = 1 ∧
      calculateProgress TaskStatus.failed = 1 ∧
      calculateProgress TaskStatus.cancelled = 0 :=
  c9_progress_mapping [taskCancelled] "c" taskCancelled (by decide)

/-- Claim C10 counterexample: for a task_type absent from the static
mapping table and no worker_type supplied, submit does not fail with an
unknown-worker-type error — the worker type silently defaults to the
string general and a pending task is created. -/
theorem c10_unmapped_type_counterexample :
    workerMapping.lookup "custom_analysis" = none ∧
    ((submitTask [] "desc" "custom_analysis" none 5 3600 [] [] "id1" 0).toOption.bind
        (fun r => getTask r.2 "id1")).map (fun t => (t.status, t.worker_type)) =
      some (TaskStatus.pending, "general") := by
  decide

/-- Claim C10 (amended): submit never raises an unknown-worker-type
error: when no worker_type is supplied it is derived from the static
mapping table, defaulting to the string general when the table has no
entry for the task_type.  Whenever the cost estimate succeeds — in
particular whenever the max_posts parameter is absent — submit returns
the new (assumed fresh) task id for a task created in PENDING and
appended to the store; the one failure path is the TypeError the cost
estimate raises on a non-numeric max_posts parameter, which propagates
out of submit before any task is created. -/
theorem c10_submit_defaults (db : List Task) (description task_type : String)
    (worker_type : Option String) (priority : Int) (timeout : Nat)
    (dependencies : List String) (params : List (String × PVal))
    (freshId : String) (now : Nat) :
    (∀ q : ℚ, estimateTaskCost task_type params = Except.ok q →
      ∃ db2 : List Task,
        submitTask db description task_type worker_type priority timeout
          dependencies params freshId now = Except.ok (freshId, db2) ∧
        ∃ t ∈ db2, t.id = freshId ∧ t.status = TaskStatus.pending ∧
          t.created_at = now ∧ t.cost_estimate = q ∧
          t.worker_type =
            (match worker_type with
             | some w => w
             | none => (workerMapping.lookup task_type).getD "general")) ∧
    (∀ e : String, estimateTaskCost task_type params = Except.error e →
      submitTask db description task_type worker_type priority timeout
        dependencies params freshId now = Except.error e) ∧
    (params.lookup "max_posts" = none →
      ∃ q : ℚ, estimateTaskCost task_type params = Except.ok q) := by
  refine ⟨?_, ?_, ?_⟩
  · intro q hq
    refine ⟨db ++ [{
        id := freshId
        description := description
        task_type := task_type
        priority := priority
        parameters := params
        worker_type :=
          (match worker_type with
           | some w => w
           | none => determineWorkerType task_type)
        created_at := now
        timeout_seconds := timeout
        cost_estimate := q
        dependencies := dependencies }], ?_, ?_⟩
    · unfold submitTask
      rw [hq]
    · refine ⟨{
          id := freshId
          description := description
          task_type := task_type
          priority := priority
          parameters := params
          worker_type :=
            (match worker_type with
             | some w => w
             | none => determineWorkerType task_type)
          created_at := now
          timeout_seconds := timeout
          cost_estimate := q
          dependencies := dependencies }, ?_, rfl, rfl, rfl, rfl, ?_⟩
      · simp
      · cases worker_type <;> rfl
  · intro e he
    unfold submitTask
    rw [he]
  · intro hnone
    unfold estimateTaskCost
    rw [hnone]
    exact ⟨_, rfl⟩

/-- Witness for c10_submit_defaults: a concrete unmapped task_type with
no parameters submits successfully as worker type general, and a
concrete non-numeric max_posts parameter propagates the TypeError. -/
theorem c10_submit_defaults_witness :
    (∃ db2 : List Task,
      submitTask [] "desc" "custom_analysis" none 5 3600 [] [] "id1" 0 =
        Except.ok ("id1", db2) ∧
      ∃ t ∈ db2, t.id = "id1" ∧ t.status = TaskStatus.pending ∧
        t.created_at = 0 ∧ t.cost_estimate = round3 0.01 ∧
        t.worker_type = (workerMapping.lookup "custom_analysis").getD "general") ∧
    submitTask [] "desc" "scrape_social" none 5 3600 []
        [("max_posts", PVal.str "many")] "id2" 0 =
      Except.error "TypeError: unsupported operand type for /: str and int" :=
  ⟨(c10_submit_defaults [] "desc" "custom_analysis" none 5 3600 [] [] "id1" 0).1
      (round3 0.01) (by rfl),
   (c10_submit_defaults [] "desc" "scrape_social" none 5 3600 []
      [("max_posts", PVal.str "many")] "id2" 0).2.1
      "TypeError: unsupported operand type for /: str and int" (by rfl)⟩

/-- Claim C7: the emergency-shutdown trigger of the system monitor reads
the active flag first and returns immediately when a shutdown is already
active, so a second trigger after a first is the identity; across the
two calls every registered worker receives exactly one stop call and
exactly one shutdown report is persisted; and the cost ledger emergency
path is likewise idempotent (and writes its shutdown signal file exactly
once from a clean state). -/
theorem c7_emergency_idempotent (st : MonitorState) (r1 r2 : String)
    (h : st.emergency_shutdown_active = false) :
    triggerEmergencyShutdown (triggerEmergencyShutdown st r1) r2 =
      triggerEmergencyShutdown st r1 ∧
    (triggerEmergencyShutdown st r1).workers.map (fun w => w.stop_calls) =
      st.workers.map (fun w => w.stop_calls + 1) ∧
    (triggerEmergencyShutdown st r1).shutdown_reports = st.shutdown_reports + 1 ∧
    (∀ c : CostTrackerState,
      costEmergencyShutdown (costEmergencyShutdown c) = costEmergencyShutdown c) ∧
    (∀ c : CostTrackerState, c.emergency_shutdown = false →
      (costEmergencyShutdown c).shutdown_file_writes = c.shutdown_file_writes + 1) := by
  refine ⟨?_, ?_, ?_, ?_, ?_⟩
  · simp [triggerEmergencyShutdown, h]
  · simp [triggerEmergencyShutdown, h, workerStop]
  · simp [triggerEmergencyShutdown, h]
  · intro c
    by_cases hc : c.emergency_shutdown <;> simp [costEmergencyShutdown, hc]
  · intro c hc
    simp [costEmergencyShutdown, hc]

/-- Two registered workers for the shutdown witness. -/
def monW : MonitorState :=
  { workers := [{ worker_id := "w1", worker_type := "scraper", status := "active" },
                { worker_id := "w2", worker_type := "audio", status := "active" }] }

/-- Witness for c7_emergency_idempotent from a clean two-worker state. -/
theorem c7_emergency_idempotent_witness :
    triggerEmergencyShutdown (triggerEmergencyShutdown monW "budget") "again" =
      triggerEmergencyShutdown monW "budget" ∧
    (triggerEmergencyShutdown monW "budget").workers.map (fun w => w.stop_calls) =
      monW.workers.map (fun w => w.stop_calls + 1) :=
  ⟨(c7_emergency_idempotent monW "budget" "again" rfl).1,
   (c7_emergency_idempotent monW "budget" "again" rfl).2.1⟩

/-! Lemmas about the cost ledger totals. -/

lemma bumpTotal_sum (m : List (String × ℚ)) (k : String) (c : ℚ) :
    ((bumpTotal m k c).map (fun p => p.2)).sum = (m.map (fun p => p.2)).sum + c := by
  induction m with
  | nil => simp [bumpTotal]
  | cons p rest ih =>
      by_cases h : p.1 = k
      · simp [bumpTotal, h]
        ring
      · simp [bumpTotal, h, ih]
        ring

lemma handleCostAlert_daily_costs (st : CostTrackerState) (a : CostAlert) :
    (handleCostAlert st a).daily_costs = st.daily_costs := by
  unfold handleCostAlert costEmergencyShutdown
  cases a.severity <;> simp
  split <;> rfl

lemma handleCostAlert_daily_limit (st : CostTrackerState) (a : CostAlert) :
    (handleCostAlert st a).daily_limit_gbp = st.daily_limit_gbp := by
  unfold handleCostAlert costEmergencyShutdown
  cases a.severity <;> simp
  split <;> rfl

lemma foldl_handleCostAlert_daily_costs (l : List CostAlert) (st : CostTrackerState) :
    (l.foldl handleCostAlert st).daily_costs = st.daily_costs := by
  induction l generalizing st with
  | nil => rfl
  | cons a rest ih => rw [List.foldl_cons, ih, handleCostAlert_daily_costs]

lemma foldl_handleCostAlert_daily_limit (l : List CostAlert) (st : CostTrackerState) :
    (l.foldl handleCostAlert st).daily_limit_gbp = st.daily_limit_gbp := by
  induction l generalizing st with
  | nil => rfl
  | cons a rest ih => rw [List.foldl_cons, ih, handleCostAlert_daily_limit]

/-- One recorded event raises the daily total by exactly its cost. -/
lemma recordCostEvent_dailyTotal (st : CostTrackerState) (ev : CostEvent) (now : Nat) :
    dailyTotal (recordCostEvent st ev now) = dailyTotal st + ev.cost_gbp := by
  unfold recordCostEvent dailyTotal
  rw [foldl_handleCostAlert_daily_costs]
  exact bumpTotal_sum _ _ _

/-- Claim C5: recording N cost events each costing c raises the daily
total by exactly N times c (each record adds the event cost to the
per-service running totals the daily total sums over), and
get_remaining_budget returns the limit minus the total clamped at zero,
hence is never negative even when the limit is exceeded. -/
theorem c5_budget_monotonicity (st : CostTrackerState) (evs : List CostEvent)
    (c : ℚ) (now : Nat) (h : ∀ ev ∈ evs, ev.cost_gbp = c) :
    dailyTotal (evs.foldl (fun s e => recordCostEvent s e now) st) =
      dailyTotal st + evs.length * c ∧
    0 ≤ getRemainingBudget st ∧
    getRemainingBudget st =
      (if dailyTotal st ≤ st.daily_limit_gbp
       then st.daily_limit_gbp - dailyTotal st else 0) := by
  refine ⟨?_, le_max_left _ _, ?_⟩
  · induction evs generalizing st with
    | nil => simp
    | cons ev rest ih =>
        have hev : ev.cost_gbp = c := h ev (List.mem_cons_self _ _)
        have hrest : ∀ e ∈ rest, e.cost_gbp = c := fun e he => h e (List.mem_cons_of_mem _ he)
        rw [List.foldl_cons, ih (recordCostEvent st ev now) hrest,
          recordCostEvent_dailyTotal, hev]
        simp only [List.length_cons]
        push_cast
        ring
  · unfold getRemainingBudget
    rcases le_or_lt (dailyTotal st) st.daily_limit_gbp with hle | hlt
    · rw [if_pos hle, max_eq_right (by linarith)]
    · rw [if_neg (not_le.mpr hlt), max_eq_left (by linarith)]

/-- Two concrete events of cost 3 for the budget witness. -/
def evW1 : CostEvent :=
  { timestamp := 1, service := "anthropic", cost_gbp := 3, worker_id := "w1" }

def evW2 : CostEvent :=
  { timestamp := 2, service := "openai-tts", cost_gbp := 3, worker_id := "w2" }

/-- Witness for c5_budget_monotonicity on a fresh ledger and two events
of cost 3. -/
theorem c5_budget_monotonicity_witness :
    dailyTotal ([evW1, evW2].foldl
        (fun s e => recordCostEvent s e 5) ({} : CostTrackerState)) =
      dailyTotal ({} : CostTrackerState) + ([evW1, evW2].length : ℚ) * 3 ∧
    0 ≤ getRemainingBudget ({} : CostTrackerState) :=
  ⟨(c5_budget_monotonicity {} [evW1, evW2] 3 5 (by decide)).1,
   (c5_budget_monotonicity {} [evW1, evW2] 3 5 (by decide)).2.1⟩

/-- Claim C6: the guardrail check of every recorded event raises, for the
worker totals, a warning when the per-worker spend has passed 80 percent
of the 5-pound worker cap while still below it and a critical alert once
the cap is reached, and, for the system total, a daily alert once the
total passes 70 percent of the configured daily limit whose severity is
warning up to 90 percent, critical past 90 percent, and emergency past
100 percent. -/
theorem c6_threshold_severities (st : CostTrackerState) (ev : CostEvent) (now : Nat) :
    (checkCostGuardrails st ev now).map (fun a => (a.worker_id, a.severity)) =
      ((if (5 : ℚ) * (80 / 100) < (st.worker_costs.lookup ev.worker_id).getD 0 then
          [(ev.worker_id,
            if (5 : ℚ) ≤ (st.worker_costs.lookup ev.worker_id).getD 0
            then AlertSeverity.critical else AlertSeverity.warning)]
        else []) ++
       (if st.daily_limit_gbp * (70 / 100) < dailyTotal st then
          [("all",
            if st.daily_limit_gbp < dailyTotal st then AlertSeverity.emergency
            else if st.daily_limit_gbp * (90 / 100) < dailyTotal st
            then AlertSeverity.critical
            else AlertSeverity.warning)]
        else [])) := by
  simp only [checkCostGuardrails, List.map_append]
  norm_num
  split_ifs <;> simp_all <;> linarith

/-! Lemmas about task lookup after a store update. -/

lemma applyPatch_id (p : TaskPatch) (t : Task) : (applyPatch p t).id = t.id := rfl

lemma getTask_sqliteUpdateTask (db : List Task) (taskId : String) (p : TaskPatch)
    (h : ∃ u ∈ db, u.id = taskId) :
    ∃ u ∈ db, u.id = taskId ∧
      getTask (sqliteUpdateTask db taskId p) taskId = some (applyPatch p u) := by
  induction db with
  | nil => simp at h
  | cons v rest ih =>
      by_cases hv : v.id = taskId
      · refine ⟨v, List.mem_cons_self _ _, hv, ?_⟩
        simp [getTask, sqliteUpdateTask, hv, applyPatch_id]
      · obtain ⟨u, hu, hid⟩ : ∃ u ∈ rest, u.id = taskId := by
          rcases h with ⟨u, hu, hid⟩
          rcases List.mem_cons.mp hu with rfl | hmem
          · exact absurd hid hv
          · exact ⟨u, hmem, hid⟩
        obtain ⟨u2, hu2, hid2, heq⟩ := ih ⟨u, hu, hid⟩
        refine ⟨u2, List.mem_cons_of_mem _ hu2, hid2, ?_⟩
        simpa [getTask, sqliteUpdateTask, hv] using heq

/-- Every row carrying the patched id in the store after a failed-status
update is marked failed with the recorded error message. -/
lemma failedPatch_marks (db : List Task) (taskId : String) (e : String) (now : Nat)
    (u : Task) (hu : u ∈ sqliteUpdateTask db taskId (failedPatch e now))
    (hid : u.id = taskId) :
    u.status = TaskStatus.failed ∧ u.error = some e := by
  rcases List.mem_map.mp hu with ⟨v, hv, heq⟩
  by_cases hvid : v.id = taskId
  · rw [← heq]
    simp [hvid, applyPatch, failedPatch]
  · rw [← heq] at hid
    simp [hvid] at hid

/-- An executor that returns normally without touching the queue store,
as the supervision loop permits. -/
def execInert : Executor := fun _ db => (db, none)

/-- An executor that raises. -/
def execRaise : Executor := fun _ db => (db, some "boom")

/-- A claimed task and its worker, for the supervision fixtures. -/
def taskClaimed : Task :=
  { id := "t", worker_type := "scraper", status := TaskStatus.assigned }

def workerSup : Worker :=
  { worker_id := "w1", worker_type := "scraper", status := "active" }

/-- Claim C3 counterexample: _process_task never sends a completed
update.  With an executor that returns normally (and leaves the store
alone, as the executor contract allows), the task the worker claimed is
still PROCESSING after the round, not COMPLETED. -/
theorem c3_executor_completion_counterexample :
    (getTask (processTask workerSup taskClaimed [taskClaimed] execInert 7).2 "t").map
        (fun u => u.status) = some TaskStatus.processing ∧
    TaskStatus.processing ≠ TaskStatus.completed := by
  decide

/-- Claim C3 (amended): for every task a worker claims, the supervision
loop marks it PROCESSING (with started_at and assigned_worker) before
the executor runs; if the executor raises, the loop marks the task
FAILED with the error message, bumps the error counter and leaves the
worker status untouched so the poll loop keeps running; if the executor
returns normally the loop only bumps its local completion counter and
sends no further task update — recording COMPLETED with the result is
left to the concrete executor implementations themselves. -/
theorem c3_supervisor_protocol (w : Worker) (t : Task) (db : List Task)
    (exec : Executor) (now : Nat) (h : ∃ u ∈ db, u.id = t.id) :
    ((getTask (execInputState db t.id w.worker_id now) t.id).map
        (fun u => (u.status, u.assigned_worker, u.started_at)) =
      some (TaskStatus.processing, some w.worker_id, some now)) ∧
    (∀ db2 : List Task,
      exec t.id (execInputState db t.id w.worker_id now) = (db2, none) →
      (processTask w t db exec now).2 = db2 ∧
      (processTask w t db exec now).1.tasks_completed = w.tasks_completed + 1 ∧
      (processTask w t db exec now).1.status = w.status) ∧
    (∀ (db2 : List Task) (e : String),
      exec t.id (execInputState db t.id w.worker_id now) = (db2, some e) →
      (processTask w t db exec now).2 =
        sqliteUpdateTask db2 t.id (failedPatch e now) ∧
      (∀ u ∈ (processTask w t db exec now).2, u.id = t.id →
        u.status = TaskStatus.failed ∧ u.error = some e) ∧
      (processTask w t db exec now).1.error_count = w.error_count + 1 ∧
      (processTask w t db exec now).1.status = w.status) := by
  refine ⟨?_, ?_, ?_⟩
  · obtain ⟨u, _, _, heq⟩ :=
      getTask_sqliteUpdateTask db t.id (processingPatch w.worker_id now) h
    rw [execInputState, heq]
    rfl
  · intro db2 hx
    unfold processTask
    rw [show execInputState db t.id w.worker_id now =
          sqliteUpdateTask db t.id (processingPatch w.worker_id now) from rfl] at hx
    simp only [execInputState]
    rw [hx]
    exact ⟨rfl, rfl, rfl⟩
  · intro db2 e hx
    unfold processTask
    simp only [execInputState] at hx ⊢
    rw [hx]
    refine ⟨rfl, ?_, rfl, rfl⟩
    intro u hu hid
    exact failedPatch_marks db2 t.id e now u hu hid

/-- Witness for c3_supervisor_protocol with a raising executor: the
failure protocol at a concrete claimed task. -/
theorem c3_supervisor_protocol_witness :
    (processTask workerSup taskClaimed [taskClaimed] execRaise 7).2 =
      sqliteUpdateTask
        (execInputState [taskClaimed] "t" "w1" 7) "t" (failedPatch "boom" 7) ∧
    (processTask workerSup taskClaimed [taskClaimed] execRaise 7).1.error_count = 1 :=
  ⟨((c3_supervisor_protocol workerSup taskClaimed [taskClaimed] execRaise 7
      ⟨taskClaimed, List.mem_cons_self _ _, rfl⟩).2.2
      (execInputState [taskClaimed] "t" "w1" 7) "boom" rfl).1,
   ((c3_supervisor_protocol workerSup taskClaimed [taskClaimed] execRaise 7
      ⟨taskClaimed, List.mem_cons_self _ _, rfl⟩).2.2
      (execInputState [taskClaimed] "t" "w1" 7) "boom" rfl).2.2.1⟩

/-! Lemmas about the monitor sweep. -/

lemma timeoutTask_counts (now : Nat) (t : Task) :
    (timeoutTask now t).retry_count = t.retry_count ∧
    (timeoutTask now t).max_retries = t.max_retries := by
  unfold timeoutTask
  by_cases h : t.status = TaskStatus.processing
  · simp only [h, if_true]
    cases t.started_at
    · exact ⟨rfl, rfl⟩
    · dsimp only
      split_ifs <;> exact ⟨rfl, rfl⟩
  · simp [h]

lemma timeoutTask_of_failed (now : Nat) (t : Task)
    (h : t.status = TaskStatus.failed) : timeoutTask now t = t := by
  unfold timeoutTask
  rw [if_neg]
  simp [h]

/-- The task after one fully failing worker round: claim the next
scraper task, run it through a raising executor, then sweep. -/
def failingRound (db : List Task) (now : Nat) : List Task :=
  match sqliteGetNextTask db (some "scraper") now with
  | (some t, db2) => monitorSweep (processTask workerSup t db2 execRaise now).2 now
  | (none, db2) => monitorSweep db2 now

/-- The retry-scenario task: max_retries 3 (the dataclass default). -/
def taskRetry : Task := { id := "s", worker_type := "scraper", max_retries := 3 }

/-- Claim C4: a sweep never pushes retry_count past max_retries; the
sweep sends every FAILED task with retry budget left back to PENDING
with retry_count incremented by one and assigned_worker, started_at and
error cleared (assigned_at is cleared too); and a max_retries=3 task
that keeps failing is re-queued PENDING with retry_count 1, 2 and 3 by
three successive sweeps and is then terminally FAILED — a further sweep
leaves the store unchanged. -/
theorem c4_retry_sweep (db : List Task) (now : Nat)
    (hinv : ∀ t ∈ db, t.retry_count ≤ t.max_retries) :
    (∀ t ∈ monitorSweep db now, t.retry_count ≤ t.max_retries) ∧
    (∀ t ∈ db, t.status = TaskStatus.failed → t.retry_count < t.max_retries →
      ({ t with
          status := TaskStatus.pending
          retry_count := t.retry_count + 1
          assigned_at := none
          started_at := none
          assigned_worker := none
          error := none } : Task) ∈ monitorSweep db now) ∧
    ((getTask (failingRound [taskRetry] 10) "s").map
        (fun t => (t.status, t.retry_count)) = some (TaskStatus.pending, 1) ∧
     (getTask (failingRound (failingRound [taskRetry] 10) 10) "s").map
        (fun t => (t.status, t.retry_count)) = some (TaskStatus.pending, 2) ∧
     (getTask (failingRound (failingRound (failingRound [taskRetry] 10) 10) 10) "s").map
        (fun t => (t.status, t.retry_count)) = some (TaskStatus.pending, 3) ∧
     (getTask (failingRound (failingRound (failingRound (failingRound
          [taskRetry] 10) 10) 10) 10) "s").map
        (fun t => (t.status, t.retry_count)) = some (TaskStatus.failed, 3) ∧
     monitorSweep (failingRound (failingRound (failingRound (failingRound
          [taskRetry] 10) 10) 10) 10) 10 =
       failingRound (failingRound (failingRound (failingRound
          [taskRetry] 10) 10) 10) 10) := by
  refine ⟨?_, ?_, by decide⟩
  · intro v hv
    unfold monitorSweep at hv
    rcases List.mem_map.mp hv with ⟨u, hu, rfl⟩
    rcases List.mem_map.mp hu with ⟨t, ht, rfl⟩
    have hc := timeoutTask_counts now t
    have hi := hinv t ht
    unfold retryTask
    split_ifs with hcond
    · have hc2 : (timeoutTask now t).retry_count < (timeoutTask now t).max_retries := by
        simp only [Bool.and_eq_true, decide_eq_true_eq] at hcond
        exact hcond.2
      simpa using hc2
    · rw [hc.1, hc.2] at *
      omega
  · intro t ht hfail hretry
    have hf : timeoutTask now t = t := timeoutTask_of_failed now t hfail
    have himg : ({ t with
        status := TaskStatus.pending
        retry_count := t.retry_count + 1
        assigned_at := none
        started_at := none
        assigned_worker := none
        error := none } : Task) =
        retryTask (timeoutTask now t) := by
      rw [hf]
      unfold retryTask
      rw [if_pos (by simp [hfail, hretry])]
    rw [himg]
    unfold monitorSweep
    exact List.mem_map.mpr ⟨timeoutTask now t, List.mem_map.mpr ⟨t, ht, rfl⟩, rfl⟩

/-- A failed task with retry budget, and its store, for the sweep
witness. -/
def taskFailedOnce : Task :=
  { id := "f", worker_type := "audio", status := TaskStatus.failed,
    retry_count := 1, max_retries := 3, error := some "oops",
    assigned_worker := some "w9", started_at := some 4 }

/-- Witness for c4_retry_sweep: the concrete failed task is re-queued
pending with its fields cleared. -/
theorem c4_retry_sweep_witness :
    ({ taskFailedOnce with
        status := TaskStatus.pending
        retry_count := taskFailedOnce.retry_count + 1
        assigned_at := none
        started_at := none
        assigned_worker := none
        error := none } : Task) ∈
      monitorSweep [taskFailedOnce] 20 :=
  (c4_retry_sweep [taskFailedOnce] 20 (by decide)).2.1 taskFailedOnce
    (List.mem_cons_self _ _) rfl (by decide)

/-! The selection order of the SQLite get_next_task and the sorted-set
order of the Redis backend, and a generic lemma about fold-based
extremum selection used for both. -/

/-- The weak selection order of ORDER BY priority DESC, created_at ASC:
t is served no later than u. -/
def keyLE (t u : Task) : Prop :=
  u.priority < t.priority ∨ (t.priority = u.priority ∧ t.created_at ≤ u.created_at)

lemma keyLE_refl (t : Task) : keyLE t t := Or.inr ⟨rfl, le_refl _⟩

lemma keyLE_trans {a b c : Task} (h1 : keyLE a b) (h2 : keyLE b c) : keyLE a c := by
  rcases h1 with h1 | ⟨e1, l1⟩ <;> rcases h2 with h2 | ⟨e2, l2⟩
  · exact Or.inl (lt_trans h2 h1)
  · exact Or.inl (e2 ▸ h1)
  · exact Or.inl (e1 ▸ h2)
  · exact Or.inr ⟨e1.trans e2, le_trans l1 l2⟩

lemma betterCand_keyLE {u c : Task} (h : betterCand u c = true) : keyLE u c := by
  unfold betterCand at h
  simp only [Bool.or_eq_true, Bool.and_eq_true, decide_eq_true_eq] at h
  rcases h with h | ⟨he, hl⟩
  · exact Or.inl h
  · exact Or.inr ⟨he, le_of_lt hl⟩

lemma not_betterCand_keyLE {u c : Task} (h : betterCand u c = false) : keyLE c u := by
  have h2 : ¬(betterCand u c = true) := by simp [h]
  simp only [betterCand, Bool.or_eq_true, Bool.and_eq_true, decide_eq_true_eq,
    not_or, not_and, not_lt] at h2
  obtain ⟨hle, himp⟩ := h2
  rcases lt_or_eq_of_le hle with hlt | heq
  · exact Or.inl hlt
  · exact Or.inr ⟨heq.symm, himp heq⟩

/-- Generic specification of fold-based extremum selection: the result
is one of the inputs and is related to every input. -/
lemma foldl_pick_spec {α : Type} (R : α → α → Prop) (better : α → α → Bool)
    (hrefl : ∀ a, R a a) (htrans : ∀ {a b c : α}, R a b → R b c → R a c)
    (hyes : ∀ u c, better u c = true → R u c)
    (hno : ∀ u c, better u c = false → R c u) :
    ∀ (l : List α) (c : α),
      l.foldl (fun c u => if better u c then u else c) c ∈ c :: l ∧
      ∀ u ∈ c :: l, R (l.foldl (fun c u => if better u c then u else c) c) u := by
  intro l
  induction l with
  | nil =>
      intro c
      constructor
      · exact List.mem_cons_self _ _
      · intro u hu
        rcases List.mem_cons.mp hu with rfl | hu2
        · exact hrefl u
        · cases hu2
  | cons v rest ih =>
      intro c
      rw [List.foldl_cons]
      by_cases hb : better v c = true
      · rw [if_pos hb]
        obtain ⟨hmem, hmin⟩ := ih v
        constructor
        · rcases List.mem_cons.mp hmem with h | h
          · rw [h]
            exact List.mem_cons_of_mem _ (List.mem_cons_self _ _)
          · exact List.mem_cons_of_mem _ (List.mem_cons_of_mem _ h)
        · intro u hu
          rcases List.mem_cons.mp hu with rfl | hu2
          · exact htrans (hmin v (List.mem_cons_self _ _)) (hyes v u hb)
          · exact hmin u hu2
      · rw [if_neg hb]
        obtain ⟨hmem, hmin⟩ := ih c
        constructor
        · rcases List.mem_cons.mp hmem with h | h
          · rw [h]
            exact List.mem_cons_self _ _
          · exact List.mem_cons_of_mem _ (List.mem_cons_of_mem _ h)
        · intro u hu
          rcases List.mem_cons.mp hu with rfl | hu2
          · exact hmin u (List.mem_cons_self _ _)
          · rcases List.mem_cons.mp hu2 with rfl | hu3
            · exact htrans (hmin c (List.mem_cons_self _ _))
                (hno u c (Bool.eq_false_iff.mpr hb))
            · exact hmin u (List.mem_cons_of_mem _ hu3)

/-- The fetched candidate is a pending row of the requested worker type
and is served no later than every pending row of that worker type. -/
lemma selectCandidate_spec (db : List Task) (wt : Option String) (t : Task)
    (h : selectCandidate db wt = some t) :
    t ∈ db ∧ isPendingMatch wt t = true ∧
      ∀ u ∈ db, isPendingMatch wt u = true → keyLE t u := by
  unfold selectCandidate at h
  cases hf : db.filter (isPendingMatch wt) with
  | nil => rw [hf] at h; cases h
  | cons a as =>
      rw [hf] at h
      injection h with h
      obtain ⟨hmem, hmin⟩ :=
        foldl_pick_spec keyLE betterCand keyLE_refl keyLE_trans
          (fun u c hb => betterCand_keyLE hb)
          (fun u c hb => not_betterCand_keyLE hb) as a
      rw [h] at hmem hmin
      have htf : t ∈ db.filter (isPendingMatch wt) := by rw [hf]; exact hmem
      have hmemdb := List.mem_filter.mp htf
      refine ⟨hmemdb.1, hmemdb.2, ?_⟩
      intro u hu hup
      have : u ∈ db.filter (isPendingMatch wt) := List.mem_filter.mpr ⟨hu, hup⟩
      rw [hf] at this
      exact hmin u this

lemma selectCandidate_none (db : List Task) (wt : Option String)
    (h : selectCandidate db wt = none) :
    db.filter (isPendingMatch wt) = [] := by
  unfold selectCandidate at h
  cases hf : db.filter (isPendingMatch wt) with
  | nil => rfl
  | cons a as => rw [hf] at h; cases h

lemma assignRow_ids (db : List Task) (taskId : String) (now : Nat) :
    (assignRow db taskId now).map Task.id = db.map Task.id := by
  induction db with
  | nil => rfl
  | cons v rest ih =>
      unfold assignRow at ih ⊢
      by_cases hv : v.id = taskId <;> simp [hv, ih]

/-- Rows whose id differs from the assigned one are untouched. -/
lemma assignRow_of_not_mem (l : List Task) (taskId : String) (now : Nat)
    (h : ∀ u ∈ l, u.id ≠ taskId) : assignRow l taskId now = l := by
  induction l with
  | nil => rfl
  | cons v rest ih =>
      unfold assignRow at ih ⊢
      rw [List.map_cons, if_neg (h v (List.mem_cons_self _ _)),
        ih (fun u hu => h u (List.mem_cons_of_mem _ hu))]

lemma isPendingMatch_assigned (wt : Option String) (t : Task) (now : Nat) :
    isPendingMatch wt
      ({ t with status := TaskStatus.assigned, assigned_at := some now }) = false := by
  simp [isPendingMatch]

/-- Splitting the store around the claimed row: the pending rows of the
updated store are exactly the pending rows of the old store with the
claimed row removed (id uniqueness keeps every other row intact). -/
lemma claim_removes (db : List Task) (t : Task) (now : Nat) (wt : Option String)
    (hmem : t ∈ db) (hids : (db.map Task.id).Nodup)
    (hp : isPendingMatch wt t = true) :
    ∃ l1 l2 : List Task, db = l1 ++ t :: l2 ∧
      (assignRow db t.id now).filter (isPendingMatch wt) =
        l1.filter (isPendingMatch wt) ++ l2.filter (isPendingMatch wt) ∧
      db.filter (isPendingMatch wt) =
        l1.filter (isPendingMatch wt) ++ t :: l2.filter (isPendingMatch wt) := by
  obtain ⟨l1, l2, rfl⟩ := List.append_of_mem hmem
  have hidsplit : ((l1.map Task.id) ++ t.id :: (l2.map Task.id)).Nodup := by
    simpa using hids
  have hid1 : ∀ u ∈ l1, u.id ≠ t.id := by
    intro u hu heq
    have h1 := (List.nodup_append.mp hidsplit).2.2
    exact h1 (List.mem_map.mpr ⟨u, hu, heq⟩) (List.mem_cons_self _ _)
  have hid2 : ∀ u ∈ l2, u.id ≠ t.id := by
    intro u hu heq
    have h2 := (List.nodup_append.mp hidsplit).2.1
    rw [List.nodup_cons] at h2
    exact h2.1 (List.mem_map.mpr ⟨u, hu, heq⟩)
  have hassign : assignRow (l1 ++ t :: l2) t.id now =
      l1 ++ ({ t with status := TaskStatus.assigned, assigned_at := some now }) :: l2 := by
    show (l1 ++ t :: l2).map _ = _
    rw [List.map_append, List.map_cons]
    rw [show (l1.map fun u => if u.id = t.id then
          ({ u with status := TaskStatus.assigned, assigned_at := some now }) else u) =
        assignRow l1 t.id now from rfl, assignRow_of_not_mem l1 t.id now hid1]
    rw [show (l2.map fun u => if u.id = t.id then
          ({ u with status := TaskStatus.assigned, assigned_at := some now }) else u) =
        assignRow l2 t.id now from rfl, assignRow_of_not_mem l2 t.id now hid2]
    rw [if_pos rfl]
  refine ⟨l1, l2, rfl, ?_, ?_⟩
  · rw [hassign, List.filter_append, List.filter_cons,
      isPendingMatch_assigned wt t now]
    simp
  · rw [List.filter_append, List.filter_cons, hp]
    simp

/-- Successive SQLite claims return a permutation of the pending rows of
the requested worker type, in the served order (each returned row is
served no later than every row returned after it), provided ids are
unique and pending rows of the type have no dependencies. -/
lemma claimSeq_sorted_perm (wt : String) (now : Nat) :
    ∀ (n : Nat) (db : List Task),
      (db.filter (isPendingMatch (some wt))).length ≤ n →
      (db.map Task.id).Nodup →
      (∀ t ∈ db, isPendingMatch (some wt) t = true → t.dependencies = []) →
      (sqliteClaimSeq n db wt now).Perm (db.filter (isPendingMatch (some wt))) ∧
      (sqliteClaimSeq n db wt now).Pairwise keyLE := by
  intro n
  induction n with
  | zero =>
      intro db hlen _ _
      have hnil : db.filter (isPendingMatch (some wt)) = [] :=
        List.eq_nil_of_length_eq_zero (Nat.le_zero.mp hlen)
      rw [hnil]
      exact ⟨List.Perm.refl _, List.Pairwise.nil⟩
  | succ n ih =>
      intro db hlen hids hdeps
      cases hsel : selectCandidate db (some wt) with
      | none =>
          have hnil := selectCandidate_none db (some wt) hsel
          have hstep : sqliteGetNextTask db (some wt) now = (none, db) := by
            unfold sqliteGetNextTask
            rw [hsel]
          rw [show sqliteClaimSeq (n + 1) db wt now = [] by
            unfold sqliteClaimSeq
            rw [hstep], hnil]
          exact ⟨List.Perm.refl _, List.Pairwise.nil⟩
      | some t =>
          obtain ⟨hmem, hp, hmin⟩ := selectCandidate_spec db (some wt) t hsel
          have hdep : t.dependencies = [] := hdeps t hmem hp
          have hstep : sqliteGetNextTask db (some wt) now =
              (some t, assignRow db t.id now) := by
            unfold sqliteGetNextTask
            rw [hsel]
            dsimp only
            rw [hdep]
            rfl
          have hseq : sqliteClaimSeq (n + 1) db wt now =
              t :: sqliteClaimSeq n (assignRow db t.id now) wt now := by
            show (match sqliteGetNextTask db (some wt) now with
              | (some t, db2) => t :: sqliteClaimSeq n db2 wt now
              | (none, _) => []) = _
            rw [hstep]
          obtain ⟨l1, l2, hsplit, hfA, hfD⟩ :=
            claim_removes db t now (some wt) hmem hids hp
          have hlen2 : ((assignRow db t.id now).filter
              (isPendingMatch (some wt))).length ≤ n := by
            rw [hfA]
            have : (db.filter (isPendingMatch (some wt))).length =
                (l1.filter (isPendingMatch (some wt))).length +
                  (l2.filter (isPendingMatch (some wt))).length + 1 := by
              rw [hfD]
              simp [Nat.add_comm, Nat.add_left_comm]
            rw [List.length_append]
            omega
          have hids2 : ((assignRow db t.id now).map Task.id).Nodup := by
            rw [assignRow_ids]
            exact hids
          have hdeps2 : ∀ u ∈ assignRow db t.id now,
              isPendingMatch (some wt) u = true → u.dependencies = [] := by
            intro u hu hup
            rcases List.mem_map.mp hu with ⟨v, hv, rfl⟩
            by_cases hvid : v.id = t.id
            · rw [if_pos hvid] at hup
              rw [isPendingMatch_assigned] at hup
              cases hup
            · rw [if_neg hvid] at hup ⊢
              exact hdeps v hv hup
          obtain ⟨ihPerm, ihPair⟩ := ih (assignRow db t.id now) hlen2 hids2 hdeps2
          rw [hseq]
          constructor
          · refine List.Perm.trans (ihPerm.cons t) ?_
            rw [hfA, hfD]
            exact List.perm_middle.symm
          · refine List.pairwise_cons.mpr ⟨?_, ihPair⟩
            intro u hu
            have hu2 : u ∈ (assignRow db t.id now).filter (isPendingMatch (some wt)) :=
              ihPerm.subset hu
            rw [hfA] at hu2
            have humem : u ∈ db ∧ isPendingMatch (some wt) u = true := by
              rcases List.mem_append.mp hu2 with h | h
              · have := List.mem_filter.mp h
                exact ⟨by rw [hsplit]; exact List.mem_append_left _ this.1, this.2⟩
              · have := List.mem_filter.mp h
                exact ⟨by
                  rw [hsplit]
                  exact List.mem_append_right _ (List.mem_cons_of_mem _ this.1),
                  this.2⟩
            exact hmin u humem.1 humem.2

/-! Ordering facts about the Redis sorted-set read. -/

lemma charListLt_asymm : ∀ (a b : List Char),
    charListLt a b = true → charListLt b a = false := by
  intro a
  induction a with
  | nil =>
      intro b _
      cases b <;> rfl
  | cons x xs ih =>
      intro b hab
      cases b with
      | nil => simp [charListLt] at hab
      | cons y ys =>
          unfold charListLt at hab ⊢
          by_cases hxy : x < y
          · rw [if_neg (lt_asymm hxy), if_pos hxy]
          · rw [if_neg hxy] at hab
            by_cases hyx : y < x
            · rw [if_pos hyx] at hab
              cases hab
            · rw [if_neg hyx] at hab
              rw [if_neg hyx, if_neg hxy]
              exact ih ys hab

lemma charListLt_neg_trans : ∀ (a b c : List Char),
    charListLt a b = false → charListLt b c = false → charListLt a c = false := by
  intro a
  induction a with
  | nil =>
      intro b c hab hbc
      cases b with
      | nil =>
          cases c with
          | nil => rfl
          | cons z zs => simp [charListLt] at hbc
      | cons y ys => simp [charListLt] at hab
  | cons x xs ih =>
      intro b c hab hbc
      cases c with
      | nil => rfl
      | cons z zs =>
          cases b with
          | nil => simp [charListLt] at hbc
          | cons y ys =>
              unfold charListLt at hab hbc ⊢
              by_cases hxy : x < y
              · rw [if_pos hxy] at hab
                cases hab
              · rw [if_neg hxy] at hab
                by_cases hyz : y < z
                · rw [if_pos hyz] at hbc
                  cases hbc
                · rw [if_neg hyz] at hbc
                  have hyx : y ≤ x := not_lt.mp hxy
                  have hzy : z ≤ y := not_lt.mp hyz
                  have hzx : z ≤ x := le_trans hzy hyx
                  rw [if_neg (not_lt.mpr hzx)]
                  by_cases hzltx : z < x
                  · rw [if_pos hzltx]
                  · rw [if_neg hzltx]
                    have hxz : x = z := le_antisymm (not_lt.mp hzltx) hzx
                    have hyx2 : y = x := le_antisymm hyx (hxz ▸ hzy)
                    have hzy2 : z = y := by rw [hyx2, ← hxz]
                    rw [if_neg (by rw [hyx2]; exact lt_irrefl x)] at hab
                    rw [if_neg (by rw [hzy2]; exact lt_irrefl y)] at hbc
                    exact ih ys zs hab hbc


/-- The weak ZREVRANGE order: p is served no later than q (higher score,
or equal score and member at least as great). -/
def zKeyGE (p q : String × Int) : Prop :=
  q.2 < p.2 ∨ (p.2 = q.2 ∧ charListLt p.1.data q.1.data = false)

lemma charListLt_irrefl : ∀ l : List Char, charListLt l l = false := by
  intro l
  induction l with
  | nil => rfl
  | cons x xs ih => simp [charListLt, ih]

lemma zKeyGE_refl (p : String × Int) : zKeyGE p p :=
  Or.inr ⟨rfl, charListLt_irrefl _⟩

lemma zKeyGE_trans {a b c : String × Int} (h1 : zKeyGE a b) (h2 : zKeyGE b c) :
    zKeyGE a c := by
  rcases h1 with h1 | ⟨e1, l1⟩ <;> rcases h2 with h2 | ⟨e2, l2⟩
  · exact Or.inl (lt_trans h2 h1)
  · exact Or.inl (e2 ▸ h1)
  · exact Or.inl (e1 ▸ h2)
  · exact Or.inr ⟨e1.trans e2, charListLt_neg_trans _ _ _ l1 l2⟩

lemma zrevBetter_keyGE {u c : String × Int} (h : zrevBetter u c = true) :
    zKeyGE u c := by
  unfold zrevBetter at h
  simp only [Bool.or_eq_true, Bool.and_eq_true, decide_eq_true_eq] at h
  rcases h with h | ⟨he, hl⟩
  · exact Or.inl h
  · exact Or.inr ⟨he.symm, charListLt_asymm _ _ hl⟩

lemma not_zrevBetter_keyGE {u c : String × Int} (h : zrevBetter u c = false) :
    zKeyGE c u := by
  have h2 : ¬(zrevBetter u c = true) := by simp [h]
  unfold zrevBetter at h2
  simp only [Bool.or_eq_true, Bool.and_eq_true, decide_eq_true_eq, not_or,
    not_and] at h2
  obtain ⟨hle, himp⟩ := h2
  rcases lt_or_eq_of_le (not_lt.mp hle) with hlt | heq
  · exact Or.inl hlt
  · refine Or.inr ⟨heq.symm, ?_⟩
    exact Bool.eq_false_iff.mpr (himp heq.symm)

/-- ZREVRANGE 0 0 of a nonempty sorted set returns the member of an
entry that is (score, member)-maximal among all entries. -/
lemma zrevrangeTop_spec (z : List (String × Int)) (hz : z ≠ []) :
    ∃ p ∈ z, zrevrangeTop z = some p.1 ∧ ∀ q ∈ z, zKeyGE p q := by
  cases z with
  | nil => exact absurd rfl hz
  | cons e es =>
      obtain ⟨hmem, hmax⟩ :=
        foldl_pick_spec zKeyGE zrevBetter zKeyGE_refl zKeyGE_trans
          (fun u c hb => zrevBetter_keyGE hb)
          (fun u c hb => not_zrevBetter_keyGE hb) es e
      exact ⟨_, hmem, rfl, hmax⟩

/-! The C8 fixtures: the Redis tie counterexample and the SQLite
priority-order witness store. -/

/-- Two equal-priority tasks; id a created first, id b created second. -/
def taskTieA : Task :=
  { id := "a", priority := 5, worker_type := "scraper", created_at := 0 }

def taskTieB : Task :=
  { id := "b", priority := 5, worker_type := "scraper", created_at := 1 }

def rstTie : RedisState := redisAddTask (redisAddTask {} taskTieA) taskTieB

/-- Claim C8 counterexample: on the Redis backend two tasks of equal
priority come back in reverse-lexicographic id order, not earliest
created_at first — the task created second (id b) is returned before the
task created first (id a), because the sorted set breaks score ties by
member string and created_at never enters the ordering. -/
theorem c8_redis_tie_counterexample :
    taskTieA.created_at < taskTieB.created_at ∧
    taskTieA.priority = taskTieB.priority ∧
    ((redisGetNextTask rstTie (some "scraper") 9).1).map (fun t => t.id) =
      some "b" := by
  decide

/-- Claim C8 (amended): on the SQLite backend, for every store of
pending tasks with unique ids, no dependencies and a common worker_type,
successive claim_next calls return exactly those tasks (a permutation)
in the served order: descending priority, ties broken by earliest
created_at (pairwise keyLE).  On the Redis backend the returned entry is
maximal in (priority score, member id): equal-priority ties go to the
lexicographically greatest task id, not the earliest created_at. -/
theorem c8_priority_ordering (db : List Task) (wt : String) (now : Nat)
    (hids : (db.map Task.id).Nodup)
    (hall : ∀ t ∈ db, t.status = TaskStatus.pending ∧ t.dependencies = [] ∧
      t.worker_type = wt) :
    (sqliteClaimSeq db.length db wt now).Perm db ∧
    (sqliteClaimSeq db.length db wt now).Pairwise keyLE ∧
    (∀ z : List (String × Int), z ≠ [] →
      ∃ p ∈ z, zrevrangeTop z = some p.1 ∧ ∀ q ∈ z, zKeyGE p q) := by
  have hfilter : db.filter (isPendingMatch (some wt)) = db := by
    apply List.filter_eq_self.mpr
    intro a ha
    obtain ⟨h1, h2, h3⟩ := hall a ha
    simp [isPendingMatch, h1, h3]
  have hmain := claimSeq_sorted_perm wt now db.length db
    (by rw [hfilter]) hids (fun t ht _ => (hall t ht).2.1)
  have h1 := hmain.1
  rw [hfilter] at h1
  exact ⟨h1, hmain.2, zrevrangeTop_spec⟩

/-- The fixture of the priority-ordering witness: priorities
[10, 5, 5, 1], the two fives created in order. -/
def dbPrio : List Task :=
  [{ id := "p1", priority := 10, worker_type := "scraper", created_at := 0 },
   { id := "p2", priority := 5, worker_type := "scraper", created_at := 1 },
   { id := "p3", priority := 5, worker_type := "scraper", created_at := 2 },
   { id := "p4", priority := 1, worker_type := "scraper", created_at := 3 }]

/-- Witness for c8_priority_ordering at the [10, 5, 5, 1] store. -/
theorem c8_priority_ordering_witness :
    (sqliteClaimSeq dbPrio.length dbPrio "scraper" 7).Perm dbPrio ∧
    (sqliteClaimSeq dbPrio.length dbPrio "scraper" 7).Pairwise keyLE ∧
    (sqliteClaimSeq dbPrio.length dbPrio "scraper" 7).map (fun t => t.id) =
      ["p1", "p2", "p3", "p4"] :=
  ⟨(c8_priority_ordering dbPrio "scraper" 7 (by decide) (by decide)).1,
   (c8_priority_ordering dbPrio "scraper" 7 (by decide) (by decide)).2.1,
   by decide⟩

end BriefingsCore
